import Mathlib

/-!
Shallow embedding of the core logic of the inventory-management app
(`app/routes/app.import-product-data.jsx`, `app/routes/app.export-product-data.jsx`).

Conventions of the embedding:
* JS strings are Lean `String`; a possibly-absent / possibly-falsy field is
  `Option String` (`none` models `undefined`/missing; `some ""` models the
  empty string, which is falsy in JS).
* JS `Map` objects are association lists with latest-`set` entry first
  (`mapSet` prepends, `mapGet` takes the first hit), matching overwrite
  semantics of `Map.set` / `Map.get`.
* JS numbers that hold inventory quantities are `Int` (the code only ever
  produces integers for them via `parseInt`; float precision loss for huge
  values is outside the modelled range).
* External library calls (`fetch`, `JSON.parse`, GraphQL transport) are
  modelled by their observable results: a fetched page / artifact line is
  given as a value, with `none` / `.thrown` standing for a parse failure or
  a thrown exception.
-/

namespace InventoryApp

/-! ## JS-style helpers -/

/-- JS truthiness of a string-valued field: `undefined` and `""` are falsy. -/
def jsTruthy : Option String → Bool
  | none => false
  | some s => s ≠ ""

/-- `a || b` on two possibly-absent strings (`""` and `undefined` are falsy). -/
def jsOrOpt (a b : Option String) : Option String :=
  match a with
  | some s => if s = "" then b else some s
  | none => b

/-- `x || d` where `x` is a possibly-absent string and `d` a default. -/
def jsStrOr (o : Option String) (d : String) : String :=
  match o with
  | some s => if s = "" then d else s
  | none => d

/-- Rendering of a possibly-`undefined` string when concatenated in JS. -/
def jsStrOrUndef (o : Option String) : String := o.getD "undefined"

/-- The whitespace skipped by `parseInt` (common cases of the JS trim set). -/
def isJsSpace (c : Char) : Bool := c = ' ' || c = '\t' || c = '\n' || c = '\r'

/-- Decimal digit value. -/
def decVal (c : Char) : Option Nat :=
  if '0' ≤ c ∧ c ≤ '9' then some (c.toNat - 48) else none

/-- Hexadecimal digit value. -/
def hexVal (c : Char) : Option Nat :=
  if '0' ≤ c ∧ c ≤ '9' then some (c.toNat - 48)
  else if 'a' ≤ c ∧ c ≤ 'f' then some (c.toNat - 87)
  else if 'A' ≤ c ∧ c ≤ 'F' then some (c.toNat - 55)
  else none

/-- Accumulate the longest leading digit run; `none` when no digit was read. -/
def parseRun (dv : Char → Option Nat) (base : Nat) : List Char → Option Nat → Option Nat
  | [], acc => acc
  | c :: rest, acc =>
    match dv c with
    | none => acc
    | some d => parseRun dv base rest (some (acc.getD 0 * base + d))

/-- JS `parseInt(s)` with no explicit radix: skip whitespace, optional sign,
`0x`/`0X` selects base 16, then the longest digit run; `none` is `NaN`. -/
def jsParseInt (s : String) : Option Int :=
  let cs := s.data.dropWhile isJsSpace
  let sgn : Int := match cs with
    | '-' :: _ => -1
    | _ => 1
  let cs2 : List Char := match cs with
    | '-' :: r => r
    | '+' :: r => r
    | _ => cs
  let mag : Option Nat := match cs2 with
    | '0' :: c :: r =>
      if c = 'x' ∨ c = 'X' then parseRun hexVal 16 r none
      else parseRun decVal 10 ('0' :: c :: r) none
    | _ => parseRun decVal 10 cs2 none
  mag.map (fun m => sgn * (m : Int))

/-- `parseInt` applied to a possibly-missing field (`parseInt(undefined)` is `NaN`). -/
def jsParseIntOpt : Option String → Option Int
  | none => none
  | some s => jsParseInt s

/-- JS `s.toLowerCase()`, computed on the character list. -/
def jsToLower (s : String) : String := ⟨s.data.map Char.toLower⟩

/-- JS `s.trim()`, computed on the character list. -/
def jsTrim (s : String) : String :=
  ⟨((s.data.dropWhile Char.isWhitespace).reverse.dropWhile Char.isWhitespace).reverse⟩

/-- JS `haystack.includes(needle)`: leading-match helper. -/
def charsLeadMatch : List Char → List Char → Bool
  | [], _ => true
  | _ :: _, [] => false
  | a :: as, b :: bs => a = b && charsLeadMatch as bs

/-- JS `haystack.includes(needle)`: search at every position. -/
def charsContain (needle : List Char) : List Char → Bool
  | [] => charsLeadMatch needle []
  | c :: rest => charsLeadMatch needle (c :: rest) || charsContain needle rest

/-- JS `hay.includes(needle)`. -/
def jsIncludes (hay needle : String) : Bool := charsContain needle.data hay.data

/-- Association-list read mirroring `Map.get` (first, i.e. latest, entry wins). -/
def mapGet {α : Type} : List (String × α) → String → Option α
  | [], _ => none
  | (k, v) :: rest, key => if k = key then some v else mapGet rest key

/-- Association-list write mirroring `Map.set` (prepended entry shadows older ones). -/
def mapSet {α : Type} (m : List (String × α)) (k : String) (v : α) : List (String × α) :=
  (k, v) :: m

/-! ## Import data model (`app.import-product-data.jsx`, `action`) -/

/-- A store location as returned by the `getLocations` query. -/
structure Location where
  id : String
  name : String
deriving DecidableEq

/-- The location mode chosen in the form: `"ALL_LOCATIONS"` with the
prefetched location list, or a single selected location (its id and the
name fetched by the `getLocation` query). -/
inductive Mode where
  | allLocations (locations : List Location)
  | single (locId : String) (locName : String)
deriving DecidableEq

/-- One input row of the parsed spreadsheet: the `"SKU"`,
`"Quantity Available"` and `"Inventory Location"` fields.  Numeric cell
values are modelled by their decimal rendering. -/
structure Row where
  sku : Option String
  quantityRaw : Option String
  locationLabel : Option String
deriving DecidableEq

/-- Value of the Remote Index (`skuMap`): `{ inventoryItemId, levels }`. -/
structure VariantEntry where
  inventoryItemId : String
  levels : List (String × Int)
deriving DecidableEq

/-- The Remote Index `skuMap`: case-folded SKU to variant entry. -/
abbrev SkuMap := List (String × VariantEntry)

/-- An accepted diff pushed onto `bulkUpdates`. -/
structure Diff where
  inventoryItemId : String
  locationId : String
  quantity : Int
deriving DecidableEq

/-- Which rejection branch of the row loop fired; the user-visible strings
are derived by `rejectErrMsg` / `rejectReasonText`. -/
inductive RejectKind where
  | invalidQuantity
  | locationRequired
  | locationNotFound (loc : String)
  | locationMismatch (sheet sel : String)
  | duplicateRow
  | variantNotFound
  | locationNotStocked
deriving DecidableEq

/-- The message pushed onto `results.errors` for a rejection. -/
def rejectErrMsg (sku : String) : RejectKind → String
  | .invalidQuantity => "Skipped SKU " ++ sku ++ ": Invalid or missing quantity value"
  | .locationRequired =>
      "Skipped SKU " ++ sku ++ ": Inventory Location is required when \"All Locations\" is selected"
  | .locationNotFound loc =>
      "Skipped SKU " ++ sku ++ ": Location \x27" ++ loc ++ "\x27 not found in store"
  | .locationMismatch sheet sel =>
      "Skipped SKU " ++ sku ++ ": Location in sheet \x27" ++ sheet ++
        "\x27 does not match selected location \x27" ++ sel ++ "\x27"
  | .duplicateRow =>
      "Skipped SKU " ++ sku ++ ": You have identical row having same SKU and location"
  | .variantNotFound => "Variant not found for SKU: " ++ sku
  | .locationNotStocked =>
      "Skipped SKU " ++ sku ++ ": SKU don\x27t have this location (or not stocked)"

/-- The `"Error Reason"` attached to the row in `results.failedRows`. -/
def rejectReasonText : RejectKind → String
  | .invalidQuantity => "Invalid or missing quantity value"
  | .locationRequired => "Inventory Location is required for All Locations mode"
  | .locationNotFound loc => "Location \x27" ++ loc ++ "\x27 not found in store"
  | .locationMismatch sheet sel => "Location mismatch: \x27" ++ sheet ++ "\x27 ≠ \x27" ++ sel ++ "\x27"
  | .duplicateRow => "You have identical row having same SKU and location"
  | .variantNotFound => "Variant not found"
  | .locationNotStocked => "SKU don\x27t have this location"

/-- The classification of one row by the validation loop. `dropped` is the
bare `continue` for a missing/falsy SKU or the literal header value. -/
inductive Outcome where
  | dropped
  | rejected (kind : RejectKind)
  | skipped
  | accepted (d : Diff)
deriving DecidableEq

/-- `!row["SKU"] || row["SKU"] === "SKU"`. -/
def skuHeaderOrMissing (r : Row) : Bool :=
  !(jsTruthy r.sku) || decide (r.sku = some "SKU")

/-- `const sku = String(row["SKU"]).trim()`. -/
def rowSku (r : Row) : String := jsTrim (r.sku.getD "")

/-- `const skuKey = sku.toLowerCase()`. -/
def rowSkuKey (r : Row) : String := jsToLower (rowSku r)

/-- `const sheetLocation = sheetLocationRaw ? String(sheetLocationRaw).trim() : ""`. -/
def rowSheetLocation (r : Row) : String := jsTrim (r.locationLabel.getD "")

/-- Result of the location-resolution block of the row loop. -/
inductive LocResolution where
  | ok (locId : String) (locName : String)
  | fail (kind : RejectKind)
deriving DecidableEq

/-- Location resolution: in all-locations mode the label of the row is
required and matched case-insensitively against the known location names; in
single-location mode a present label must match the selected location. -/
def resolveLocation (mode : Mode) (sheetLocation : String) : LocResolution :=
  match mode with
  | .allLocations locs =>
    if sheetLocation = "" then .fail .locationRequired
    else
      match locs.find? (fun l => decide (jsToLower l.name = jsToLower sheetLocation)) with
      | none => .fail (.locationNotFound sheetLocation)
      | some l => .ok l.id l.name
  | .single locId locName =>
    if sheetLocation ≠ "" ∧ jsToLower sheetLocation ≠ jsToLower locName then
      .fail (.locationMismatch sheetLocation locName)
    else .ok locId locName

/-- `const combinationKey = skuKey + "|" + targetLocationName`. -/
def combKey (skuKey locName : String) : String := skuKey ++ "|" ++ locName

/-- One iteration of the row loop (lines 209-295 of the import route):
classify the row against the Remote Index and update the
`processedCombinations` set, given here as the list `seen` of keys. -/
def classifyRow (mode : Mode) (idx : SkuMap) (seen : List String) (r : Row) :
    Outcome × List String :=
  if skuHeaderOrMissing r then (.dropped, seen)
  else
    match jsParseIntOpt r.quantityRaw with
    | none => (.rejected .invalidQuantity, seen)
    | some quantity =>
      match resolveLocation mode (rowSheetLocation r) with
      | .fail k => (.rejected k, seen)
      | .ok targetLocationId targetLocationName =>
        if combKey (rowSkuKey r) targetLocationName ∈ seen then
          (.rejected .duplicateRow, seen)
        else
          let seen2 := combKey (rowSkuKey r) targetLocationName :: seen
          match mapGet idx (rowSkuKey r) with
          | none => (.rejected .variantNotFound, seen2)
          | some vd =>
            match mapGet vd.levels targetLocationId with
            | none => (.rejected .locationNotStocked, seen2)
            | some currentQty =>
              if currentQty = quantity then (.skipped, seen2)
              else (.accepted ⟨vd.inventoryItemId, targetLocationId, quantity⟩, seen2)

/-- The mutable `results` object of the `action`. -/
structure RunResults where
  total : Nat
  updated : Nat
  errors : List String
  failedRows : List (Row × String)
  skippedRows : List (Row × String)
  bulkOperationId : Option String
deriving DecidableEq

/-- Loop state: `results`, `processedCombinations` and `bulkUpdates`. -/
structure ValState where
  results : RunResults
  seen : List String
  bulkUpdates : List Diff
deriving DecidableEq

/-- `results` as initialised before the loop. -/
def initResults (rows : List Row) : RunResults :=
  { total := rows.length, updated := 0, errors := [], failedRows := [],
    skippedRows := [], bulkOperationId := none }

/-- Route one classified row into the `results` collections, as the loop body does. -/
def valStep (mode : Mode) (idx : SkuMap) (st : ValState) (r : Row) : ValState :=
  match classifyRow mode idx st.seen r with
  | (.dropped, s) => { st with seen := s }
  | (.rejected k, s) =>
      { st with
        seen := s
        results := { st.results with
          errors := st.results.errors ++ [rejectErrMsg (rowSku r) k]
          failedRows := st.results.failedRows ++ [(r, rejectReasonText k)] } }
  | (.skipped, s) =>
      { st with
        seen := s
        results := { st.results with
          skippedRows := st.results.skippedRows ++ [(r, "Quantity already matches")] } }
  | (.accepted d, s) => { st with seen := s, bulkUpdates := st.bulkUpdates ++ [d] }

/-- The whole in-memory validation phase of the `action`. -/
def runValidation (mode : Mode) (idx : SkuMap) (rows : List Row) : ValState :=
  rows.foldl (valStep mode idx) ⟨initResults rows, [], []⟩

/-- The per-row outcome trace of the loop, threading `processedCombinations`. -/
def rowOutcomes (mode : Mode) (idx : SkuMap) : List String → List Row → List Outcome
  | _, [] => []
  | seen, r :: rest =>
    (classifyRow mode idx seen r).1 :: rowOutcomes mode idx (classifyRow mode idx seen r).2 rest

/-- The `processedCombinations` contents after a list of rows. -/
def runSeen (mode : Mode) (idx : SkuMap) : List String → List Row → List String
  | seen, [] => seen
  | seen, r :: rest => runSeen mode idx (classifyRow mode idx seen r).2 rest

/-! ## Remote Index Builder (import route, lines 151-203) -/

/-- One `quantities` element of an inventory level (`{ quantity, name }`). -/
structure QtyEntry where
  quantity : Int
  name : String
deriving DecidableEq

/-- One `inventoryLevels` edge of the prefetch query. -/
structure LevelNode where
  locationId : String
  quantities : List QtyEntry
deriving DecidableEq

/-- One `productVariants` edge of the prefetch query. -/
structure VariantNode where
  sku : Option String
  inventoryItemId : String
  levels : List LevelNode
deriving DecidableEq

/-- One successfully decoded page: `data.data.productVariants`. -/
structure PageData where
  edges : List VariantNode
  hasNextPage : Bool
deriving DecidableEq

/-- Observable result of one `admin.graphql` page fetch: the call threw, or
it resolved with `data.data?.productVariants` either absent (error payload,
`none`) or present. -/
inductive FetchOutcome where
  | thrown (msg : String)
  | payload (pv : Option PageData)
deriving DecidableEq

/-- The per-variant `levels` map: location id to the `"available"` quantity. -/
def variantLevels (ls : List LevelNode) : List (String × Int) :=
  ls.foldl
    (fun m lvl =>
      match lvl.quantities.find? (fun q2 => decide (q2.name = "available")) with
      | some qn => mapSet m lvl.locationId qn.quantity
      | none => m)
    []

/-- Ingest the edges of one page into `skuMap` (`skuMap.set(sku.toLowerCase(), ...)`). -/
def ingestPage (m : SkuMap) (edges : List VariantNode) : SkuMap :=
  edges.foldl
    (fun m n =>
      if jsTruthy n.sku then
        mapSet m (jsToLower (n.sku.getD "")) ⟨n.inventoryItemId, variantLevels n.levels⟩
      else m)
    m

/-- The `while (hasNextPage)` prefetch loop, driven by the oracle list of
successive fetch results.  A thrown fetch propagates (`.error`); a page with
no `productVariants` payload makes `hasNextPage` undefined, ending the loop
with whatever was ingested so far. -/
def buildIndexLoop : List FetchOutcome → SkuMap → Except String SkuMap
  | [], m => .ok m
  | f :: rest, m =>
    match f with
    | .thrown e => .error e
    | .payload none => .ok m
    | .payload (some pd) =>
      if pd.hasNextPage then buildIndexLoop rest (ingestPage m pd.edges)
      else .ok (ingestPage m pd.edges)

/-- Index build followed by the validation phase; a thrown page fetch
propagates out of the `action` before any row is examined. -/
def importRun (mode : Mode) (fetches : List FetchOutcome) (rows : List Row) :
    Except String ValState :=
  match buildIndexLoop fetches [] with
  | .error e => .error e
  | .ok idx => .ok (runValidation mode idx rows)

/-! ## Write-job result artifact scan (import route, loader lines 40-64) -/

/-- One parsed line of the result artifact of a write job: the extracted
`inventorySetQuantities.userErrors` messages (`[]` when absent). -/
structure WriteLine where
  userErrors : List String
deriving DecidableEq

/-- The `lines.forEach` scan.  The `try` wraps the whole loop, so the first
unparseable line (`none`) aborts the scan; `successCount` and `bulkErrors`
keep the values accumulated before the exception. -/
def scanWriteLines : List (Option WriteLine) → Nat → List String → Nat × List String
  | [], sc, errs => (sc, errs)
  | none :: _, sc, errs => (sc, errs)
  | some l :: rest, sc, errs =>
    match l.userErrors with
    | [] => scanWriteLines rest (sc + 1) errs
    | e :: _ => scanWriteLines rest sc (errs ++ [e])

/-- Scan of a whole write-job artifact: `(successCount, bulkErrors)`. -/
def scanWriteArtifact (lines : List (Option WriteLine)) : Nat × List String :=
  scanWriteLines lines 0 []

/-- The deferred (write-job) report built by the polling loader. -/
structure BulkResults where
  updated : Nat
  errors : List String
deriving DecidableEq

/-- `bulkResults` as returned for a COMPLETED write job with a result URL. -/
def deferredReport (lines : List (Option WriteLine)) : BulkResults :=
  { updated := (scanWriteArtifact lines).1, errors := (scanWriteArtifact lines).2 }

/-- The frontend merge of immediate and deferred reports
(`ImportProductData`, lines 536-540): spread `validatedResults`, add the
updated counts, concatenate the error lists. -/
def mergeResults (v : RunResults) (b : BulkResults) : RunResults :=
  { v with updated := v.updated + b.updated, errors := v.errors ++ b.errors }

/-! ## Staged Upload Pipeline (import route, lines 335-408) -/

/-- One staged target (`{ url, resourceUrl, parameters }`). -/
structure StagedTarget where
  url : String
  parameters : List (String × String)
deriving DecidableEq

/-- The `stagedUploadsCreate` payload. -/
structure StagedUploadsCreatePayload where
  stagedTargets : List StagedTarget
  userErrors : List String
deriving DecidableEq

/-- The destructured `r.data || {}` of the staged-uploads mutation:
`{ stagedUploadsCreate, userErrors: stageErrors }`. -/
structure StageResponse where
  stagedUploadsCreate : Option StagedUploadsCreatePayload
  topUserErrors : Option (List String)
deriving DecidableEq

/-- Result of the multipart POST to the staged target. -/
structure UploadResult where
  ok : Bool
  statusText : String
deriving DecidableEq

/-- The extracted pieces of the `bulkOperationRunMutation` response. -/
structure TriggerResponse where
  userErrors : List String
  operationId : Option String
deriving DecidableEq

/-- `stageErrors?.length > 0 || stagedUploadsCreate?.userErrors?.length > 0`. -/
def stageRequestFailedB (stage : StageResponse) : Bool :=
  decide (0 < (stage.topUserErrors.getD []).length) ||
    decide (0 < ((stage.stagedUploadsCreate.map StagedUploadsCreatePayload.userErrors).getD []).length)

/-- `stagedUploadsCreate?.stagedTargets?.[0]`. -/
def firstTarget (stage : StageResponse) : Option StagedTarget :=
  ((stage.stagedUploadsCreate.map StagedUploadsCreatePayload.stagedTargets).getD []).head?

/-- `"Failed to create upload target: " + (stageErrors?.[0]?.message || stagedUploadsCreate?.userErrors?.[0]?.message)`. -/
def stageFailMsg (stage : StageResponse) : String :=
  "Failed to create upload target: " ++
    jsStrOrUndef (jsOrOpt (stage.topUserErrors.getD []).head?
      ((stage.stagedUploadsCreate.map StagedUploadsCreatePayload.userErrors).getD []).head?)

/-- The staged-upload / trigger phase.  Each of the three remote calls is
an unguarded `await` in the `action`, so its observable result is an
`Except`: `.error` models a rejected promise (network failure, thrown
call), which propagates out of the `action` — the accumulated `results`
are then lost with the exception.  A call that resolves is inspected as
the code does: every resolved failure path pushes one error onto the
`results` accumulated during validation and returns them; only full
success records `bulkOperationId`.  The upload is only attempted once a
staged target was obtained, and the trigger only after an ok upload. -/
def runUploadPipeline (results : RunResults) (stage : Except String StageResponse)
    (upload : Except String UploadResult) (trigger : Except String TriggerResponse) :
    Except String RunResults :=
  match stage with
  | .error e => .error e
  | .ok st =>
    if stageRequestFailedB st then
      .ok { results with errors := results.errors ++ [stageFailMsg st] }
    else
      match firstTarget st with
      | none => .ok { results with errors := results.errors ++ ["Failed to get upload target URL"] }
      | some _target =>
        match upload with
        | .error e => .error e
        | .ok up =>
          if up.ok then
            match trigger with
            | .error e => .error e
            | .ok tr =>
              match tr.userErrors with
              | e :: _ =>
                .ok { results with errors := results.errors ++ ["Bulk Mutation Error: " ++ e] }
              | [] =>
                match tr.operationId with
                | some opId => .ok { results with bulkOperationId := some opId }
                | none =>
                  .ok { results with errors :=
                      results.errors ++ ["Failed to trigger backend bulk operation (No ID returned)"] }
          else .ok { results with errors := results.errors ++ ["Upload failed: " ++ up.statusText] }

/-- Step 5 of the `action`: nothing to do when `bulkUpdates` is empty,
otherwise run the staged-upload pipeline. -/
def executeUpdates (results : RunResults) (diffs : List Diff)
    (stage : Except String StageResponse) (upload : Except String UploadResult)
    (trigger : Except String TriggerResponse) : Except String RunResults :=
  if diffs.isEmpty then .ok results
  else runUploadPipeline results stage upload trigger

/-! ## JSONL Tree Builder (export route, loader lines 50-104)

Each artifact line is given as `Option ReadObj`: `none` models a line on
which `JSON.parse` threw (its per-line `catch` only logs and moves on).
Objects are modelled through their id-keyed essentials; node identity is
the id, mirroring the `Map`s keyed by `obj.id`. -/

/-- The location reference carried on an inventory-level line. -/
structure LocRef where
  id : String
  name : Option String
deriving DecidableEq

/-- The `inventoryItem` nested on a variant line. -/
structure InvItemObj where
  id : String
deriving DecidableEq

/-- The payload of an inventory-level line kept by the tree builder. -/
structure LevelObj where
  location : LocRef
  quantities : List Int
deriving DecidableEq

/-- One parsed artifact line of the bulk read job. -/
structure ReadObj where
  id : Option String
  sku : Option String
  title : Option String
  parentId : Option String
  selectedOptions : List (String × String)
  inventoryItem : Option InvItemObj
  levelPayload : Option LevelObj
deriving DecidableEq

/-- Mutable state of the tree-building `forEach`: the three id-keyed maps,
the ordered `products` array, and the level lists reachable from each
aliased `inventoryItem` of each variant. -/
structure ExportState where
  productIds : List String
  titles : List (String × Option String)
  variantsOf : List (String × List String)
  variantsMap : List (String × ReadObj)
  itemOwner : List (String × String)
  levelsOf : List (String × List LevelObj)
deriving DecidableEq

/-- The empty tree-builder state. -/
def initExportState : ExportState :=
  { productIds := [], titles := [], variantsOf := [], variantsMap := [],
    itemOwner := [], levelsOf := [] }

/-- `obj.id && obj.id.includes("Product") && !obj.sku` (a variant id also
contains `"Product"`, hence the `!obj.sku` guard). -/
def isProductLine (o : ReadObj) : Bool :=
  jsTruthy o.id && jsIncludes (o.id.getD "") "Product" && !(jsTruthy o.sku)

/-- `obj.id && obj.id.includes("ProductVariant")`. -/
def isVariantLine (o : ReadObj) : Bool :=
  jsTruthy o.id && jsIncludes (o.id.getD "") "ProductVariant"

/-- `(obj.id && obj.id.includes("InventoryLevel")) || (obj.location && obj.quantities)`. -/
def isLevelLine (o : ReadObj) : Bool :=
  (jsTruthy o.id && jsIncludes (o.id.getD "") "InventoryLevel") || o.levelPayload.isSome

/-- Process one artifact line; a line whose parse threw (`none`) changes
nothing (its exception is caught per line and only logged). -/
def exportStep (st : ExportState) (line : Option ReadObj) : ExportState :=
  match line with
  | none => st
  | some o =>
    if isProductLine o then
      { st with
        productIds := st.productIds ++ [o.id.getD ""]
        titles := mapSet st.titles (o.id.getD "") o.title
        variantsOf := mapSet st.variantsOf (o.id.getD "") [] }
    else if isVariantLine o then
      let vid := o.id.getD ""
      let st1 := { st with variantsMap := mapSet st.variantsMap vid o }
      let st2 :=
        match o.parentId with
        | some pid =>
          match mapGet st1.variantsOf pid with
          | some vs => { st1 with variantsOf := mapSet st1.variantsOf pid (vs ++ [vid]) }
          | none => st1
        | none => st1
      match o.inventoryItem with
      | some item =>
        { st2 with
          levelsOf := mapSet st2.levelsOf vid []
          itemOwner := mapSet st2.itemOwner item.id vid }
      | none => st2
    else if isLevelLine o then
      match o.levelPayload with
      | none => st
      | some lvl =>
        match o.parentId with
        | none => st
        | some pid =>
          match mapGet st.itemOwner pid with
          | some vid =>
            { st with
              levelsOf := mapSet st.levelsOf vid ((mapGet st.levelsOf vid).getD [] ++ [lvl]) }
          | none =>
            match mapGet st.variantsMap pid with
            | some vobj =>
              if vobj.inventoryItem.isSome then
                { st with
                  levelsOf := mapSet st.levelsOf pid ((mapGet st.levelsOf pid).getD [] ++ [lvl]) }
              else st
            | none => st
    else st

/-- The whole tree-building pass over the artifact lines. -/
def buildExportState (lines : List (Option ReadObj)) : ExportState :=
  lines.foldl exportStep initExportState

/-! ## Export projection (export route, loader lines 106-159) -/

/-- A variant as seen by the projection loop. -/
structure ProjVariant where
  sku : Option String
  selectedOptions : List (String × String)
  inventoryLevels : Option (List LevelObj)
deriving DecidableEq

/-- A product node of the Tree Builder output. -/
structure ProjProduct where
  title : Option String
  variants : List ProjVariant
deriving DecidableEq

/-- A JS cell value of the projected sheet: the quantity column holds a
number on ordinary rows but the empty string on the "No data found" row. -/
inductive JsCell where
  | num (n : Int)
  | str (s : String)
deriving DecidableEq

/-- One projected spreadsheet row. -/
structure OutRow where
  productTitle : Option String
  sku : String
  option1 : String
  option2 : String
  option3 : String
  inventoryLocationName : String
  quantityAvailable : JsCell
deriving DecidableEq

/-- `locationId && locationId !== "ALL_LOCATIONS"` (the filter is active). -/
def filterActive (locFilter : Option String) : Bool :=
  match locFilter with
  | none => false
  | some s => s ≠ "" && s ≠ "ALL_LOCATIONS"

/-- `Option{n} Value` defaults `""`, overwritten by `selectedOptions` index `< 3`. -/
def optValue (opts : List (String × String)) (i : Nat) : String :=
  ((opts.get? i).map Prod.snd).getD ""

/-- `filteredInventory`: levels surviving the location filter. -/
def survivingLevels (locFilter : Option String) (v : ProjVariant) : List LevelObj :=
  let lvls := v.inventoryLevels.getD []
  if filterActive locFilter then
    lvls.filter (fun l => decide (l.location.id = locFilter.getD ""))
  else lvls

/-- The row pushed for one surviving (variant, level) pair. -/
def levelRow (title : Option String) (v : ProjVariant) (lvl : LevelObj) : OutRow :=
  { productTitle := title
    sku := v.sku.getD ""
    option1 := optValue v.selectedOptions 0
    option2 := optValue v.selectedOptions 1
    option3 := optValue v.selectedOptions 2
    inventoryLocationName := jsStrOr lvl.location.name "Unknown"
    quantityAvailable := .num (match lvl.quantities with | [] => 0 | q :: _ => q) }

/-- The placeholder row for a variant with no inventory levels. -/
def placeholderRow (title : Option String) (v : ProjVariant) : OutRow :=
  { productTitle := title
    sku := v.sku.getD ""
    option1 := optValue v.selectedOptions 0
    option2 := optValue v.selectedOptions 1
    option3 := optValue v.selectedOptions 2
    inventoryLocationName := "N/A"
    quantityAvailable := .num 0 }

/-- The rows pushed for one variant: one per surviving level; a placeholder
only when nothing survives and no filter is active. -/
def variantRows (locFilter : Option String) (title : Option String) (v : ProjVariant) :
    List OutRow :=
  if (survivingLevels locFilter v).isEmpty then
    if filterActive locFilter then [] else [placeholderRow title v]
  else (survivingLevels locFilter v).map (levelRow title v)

/-- The `products.forEach` projection: products without variants are
skipped, rows accumulate across variants in push order. -/
def projectRows (locFilter : Option String) (products : List ProjProduct) : List OutRow :=
  products.foldl
    (fun rows p =>
      if p.variants.isEmpty then rows
      else p.variants.foldl (fun rows2 v => rows2 ++ variantRows locFilter p.title v) rows)
    []

/-- The row count the projection rule of the spec promises: one row per
surviving (Variant × InventoryLevel) pair, one placeholder for a variant
with nothing surviving when no filter is active, zero rows for it when a
filter is active. -/
def variantRowBudget (locFilter : Option String) (v : ProjVariant) : Nat :=
  if (survivingLevels locFilter v).isEmpty then
    if filterActive locFilter then 0 else 1
  else (survivingLevels locFilter v).length

/-- Total row count promised by the projection rule of the spec. -/
def specRowCount (locFilter : Option String) (products : List ProjProduct) : Nat :=
  (products.map
    (fun p => if p.variants.isEmpty then 0 else (p.variants.map (variantRowBudget locFilter)).sum)).sum

/-- The sentinel row pushed by the loader when the projection yields no
rows at all (`rows.length === 0`, lines 161-171). -/
def noDataRow : OutRow :=
  { productTitle := some "No data found"
    sku := ""
    option1 := ""
    option2 := ""
    option3 := ""
    inventoryLocationName := ""
    quantityAvailable := .str "" }

/-- Lines 106-171 of the export loader: the projection followed by the
`rows.length === 0` fallback that pushes a single "No data found" row, so
the returned list is never empty. -/
def finalizeRows (locFilter : Option String) (products : List ProjProduct) : List OutRow :=
  if (projectRows locFilter products).isEmpty then [noDataRow]
  else projectRows locFilter products

/-- One product with one variant stocked only at location `L1`: filtering
by a different location leaves no surviving pair. -/
def c6products : List ProjProduct :=
  [⟨some "Shirt", [⟨some "s1", [], some [⟨⟨"L1", some "Main"⟩, [4]⟩]⟩]⟩]

/-! ## Bulk read job submission with cancel-and-retry (export route, action lines 211-331) -/

/-- Remote calls the export `action` makes, in order. -/
inductive ApiEvent where
  | queryCurrentOp
  | cancelOp (id : String)
  | submitReadJob
deriving DecidableEq

/-- The extracted `bulkOperationRunQuery` response of one submission. -/
structure SubmitResult where
  userErrors : List String
  opId : Option String
deriving DecidableEq

/-- What the `action` returns. -/
inductive ActionOutcome where
  | failure (msg : String)
  | started (opId : Option String)
deriving DecidableEq

/-- `userErrors?.some(e => e.message.includes("in progress"))`. -/
def hasInProgress (errs : List String) : Bool :=
  errs.any (fun m => jsIncludes m "in progress")

/-- The pre-submission block: query `currentBulkOperation` and cancel it if
it exists in a non-COMPLETED state. -/
def preSubmitEvents : Option (String × String) → List ApiEvent
  | none => [.queryCurrentOp]
  | some (id, status) =>
    if status ≠ "COMPLETED" then [.queryCurrentOp, .cancelOp id] else [.queryCurrentOp]

/-- `result.userErrors.length > 0` surfaces a failure, else the started job. -/
def finalOutcome (s : SubmitResult) : ActionOutcome :=
  match s.userErrors with
  | e :: _ => .failure e
  | [] => .started s.opId

/-- The submission phase of the export `action`, driven by the observable
remote responses: initial current-op check, first submission, and — only
when the user errors of the first submission mention "in progress" — one
current-op query,
at most one cancellation, and exactly one resubmission. -/
def exportSubmitAction (currentOp0 : Option (String × String)) (s1 : SubmitResult)
    (retryCurrentOp : Option String) (s2 : SubmitResult) : List ApiEvent × ActionOutcome :=
  if hasInProgress s1.userErrors then
    (preSubmitEvents currentOp0 ++ [ApiEvent.submitReadJob] ++ [ApiEvent.queryCurrentOp] ++
        (match retryCurrentOp with
          | some cid => [ApiEvent.cancelOp cid]
          | none => []) ++
        [ApiEvent.submitReadJob],
      finalOutcome s2)
  else (preSubmitEvents currentOp0 ++ [ApiEvent.submitReadJob], finalOutcome s1)

/-- Count of submission calls in an event trace. -/
def countSubmits (evs : List ApiEvent) : Nat :=
  (evs.filter (fun e => decide (e = ApiEvent.submitReadJob))).length

/-! ## Derived views of the row loop, used to state and prove the claims -/

/-- The data a row carries once it passes the structural quantity check and
location resolution: its parsed quantity and resolved location id / name.
`none` when the row is dropped or fails one of those earlier checks. -/
def preChecked (mode : Mode) (r : Row) : Option (Int × String × String) :=
  if skuHeaderOrMissing r then none
  else
    match jsParseIntOpt r.quantityRaw with
    | none => none
    | some q =>
      match resolveLocation mode (rowSheetLocation r) with
      | .fail _ => none
      | .ok lid lname => some (q, lid, lname)

/-- The (case-folded SKU, resolved location name) pair of a row that passes
the pre-duplicate checks. -/
def resolvedPair (mode : Mode) (r : Row) : Option (String × String) :=
  (preChecked mode r).map (fun t => (rowSkuKey r, t.2.2))

/-- The tail of the row loop after the duplicate check: Remote Index lookup,
location-level lookup, no-op check, acceptance. -/
def lookupOutcome (idx : SkuMap) (skuKey lid : String) (q : Int) : Outcome :=
  match mapGet idx skuKey with
  | none => .rejected .variantNotFound
  | some vd =>
    match mapGet vd.levels lid with
    | none => .rejected .locationNotStocked
    | some cq => if cq = q then .skipped else .accepted ⟨vd.inventoryItemId, lid, q⟩

/-- How many classification outcomes a loop state accounts for. -/
def outcomeCount (st : ValState) : Nat :=
  st.bulkUpdates.length + st.results.skippedRows.length + st.results.failedRows.length

/-! ## Concrete scenarios referenced by the claim theorems -/

/-- Single-location mode used in concrete runs. -/
def singleMainMode : Mode := .single "L1" "Main"

/-- Index holding SKU `a1` stocked only at `L1` with quantity 5. -/
def idxA1 : SkuMap := [("a1", ⟨"item1", [("L1", 5)]⟩)]

/-- A run whose second page fetch resolves with an error payload (null
`data`): page one was ingested, pagination stops silently. -/
def c2fetches : List FetchOutcome :=
  [.payload (some ⟨[⟨some "a1", "item1", [⟨"L1", [⟨5, "available"⟩]⟩]⟩], true⟩),
   .payload none]

/-- Rows for the partial-index scenario: `b2` lives on the never-fetched
page two; `a1` was on page one and differs from the indexed quantity. -/
def c2rows : List Row :=
  [⟨some "b2", some "3", none⟩, ⟨some "a1", some "9", none⟩]

/-- A single row whose SKU cell holds the literal header value `"SKU"`. -/
def c3rows : List Row := [⟨some "SKU", some "5", none⟩]

/-- Store with two locations whose names concatenate ambiguously with a SKU
containing the `"|"` delimiter. -/
def c5mode : Mode := .allLocations [⟨"L1", "c"⟩, ⟨"L2", "b|c"⟩]

/-- Index knowing SKU `a`, stocked at `L2`. -/
def c5idx : SkuMap := [("a", ⟨"item-a", [("L2", 1)]⟩)]

/-- Row with SKU `a|b` at location `c`: combination key `a|b|c`. -/
def c5r1 : Row := ⟨some "a|b", some "1", some "c"⟩

/-- Row with SKU `a` at location `b|c`: also combination key `a|b|c`. -/
def c5r2 : Row := ⟨some "a", some "5", some "b|c"⟩

/-- Validation results with some prior content, for the pipeline theorems. -/
def w7results : RunResults :=
  { total := 3, updated := 0, errors := ["Variant not found for SKU: zz"],
    failedRows := [(⟨some "zz", some "2", none⟩, "Variant not found")],
    skippedRows := [(⟨some "a1", some "5", none⟩, "Quantity already matches")],
    bulkOperationId := none }

/-- A staged-upload response whose target request failed with a user error. -/
def w7stage : StageResponse :=
  { stagedUploadsCreate := some ⟨[], ["throttled"]⟩, topUserErrors := none }

end InventoryApp

namespace InventoryApp

theorem classify_dropped (mode : Mode) (idx : SkuMap) (seen : List String) (r : Row)
    (h : skuHeaderOrMissing r = true) :
    classifyRow mode idx seen r = (.dropped, seen) := by
  simp [classifyRow, h]

theorem classify_invalidQty (mode : Mode) (idx : SkuMap) (seen : List String) (r : Row)
    (h1 : skuHeaderOrMissing r = false) (h2 : jsParseIntOpt r.quantityRaw = none) :
    classifyRow mode idx seen r = (.rejected .invalidQuantity, seen) := by
  simp [classifyRow, h1, h2]

theorem classify_locFail (mode : Mode) (idx : SkuMap) (seen : List String) (r : Row)
    (q : Int) (k : RejectKind)
    (h1 : skuHeaderOrMissing r = false) (h2 : jsParseIntOpt r.quantityRaw = some q)
    (h3 : resolveLocation mode (rowSheetLocation r) = .fail k) :
    classifyRow mode idx seen r = (.rejected k, seen) := by
  simp [classifyRow, h1, h2, h3]

theorem classify_dup (mode : Mode) (idx : SkuMap) (seen : List String) (r : Row)
    (q : Int) (lid lname : String)
    (h1 : skuHeaderOrMissing r = false) (h2 : jsParseIntOpt r.quantityRaw = some q)
    (h3 : resolveLocation mode (rowSheetLocation r) = .ok lid lname)
    (h4 : combKey (rowSkuKey r) lname ∈ seen) :
    classifyRow mode idx seen r = (.rejected .duplicateRow, seen) := by
  simp [classifyRow, h1, h2, h3, h4]

theorem classify_fresh (mode : Mode) (idx : SkuMap) (seen : List String) (r : Row)
    (q : Int) (lid lname : String)
    (h1 : skuHeaderOrMissing r = false) (h2 : jsParseIntOpt r.quantityRaw = some q)
    (h3 : resolveLocation mode (rowSheetLocation r) = .ok lid lname)
    (h4 : combKey (rowSkuKey r) lname ∉ seen) :
    classifyRow mode idx seen r
      = (lookupOutcome idx (rowSkuKey r) lid q, combKey (rowSkuKey r) lname :: seen) := by
  simp only [classifyRow, h1, h2, h3]
  rw [if_neg (by simp [h1])]
  rw [if_neg h4]
  cases hm : mapGet idx (rowSkuKey r) with
  | none => simp [lookupOutcome, hm]
  | some vd =>
    cases hl : mapGet vd.levels lid with
    | none => simp [lookupOutcome, hm, hl]
    | some cq =>
      by_cases hq : cq = q <;> simp [lookupOutcome, hm, hl, hq]

end InventoryApp

namespace InventoryApp

theorem resolveLocation_fail_kind (mode : Mode) (loc : String) (k : RejectKind)
    (h : resolveLocation mode loc = .fail k) :
    k = .locationRequired ∨ (∃ s, k = .locationNotFound s) ∨ ∃ a b, k = .locationMismatch a b := by
  cases mode with
  | allLocations locs =>
    by_cases he : loc = ""
    · simp [resolveLocation, he] at h
      exact Or.inl h.symm
    · cases hf : locs.find? (fun l => decide (jsToLower l.name = jsToLower loc)) with
      | none =>
        simp [resolveLocation, he, hf] at h
        exact Or.inr (Or.inl ⟨loc, h.symm⟩)
      | some l => simp [resolveLocation, he, hf] at h
  | single lid lname =>
    by_cases hc : loc ≠ "" ∧ jsToLower loc ≠ jsToLower lname
    · simp [resolveLocation, hc] at h
      exact Or.inr (Or.inr ⟨loc, lname, h.symm⟩)
    · simp [resolveLocation, hc] at h

theorem lookupOutcome_cases (idx : SkuMap) (skuKey lid : String) (q : Int) :
    lookupOutcome idx skuKey lid q = .rejected .variantNotFound
    ∨ lookupOutcome idx skuKey lid q = .rejected .locationNotStocked
    ∨ lookupOutcome idx skuKey lid q = .skipped
    ∨ ∃ d, lookupOutcome idx skuKey lid q = .accepted d := by
  cases hm : mapGet idx skuKey with
  | none => exact Or.inl (by simp [lookupOutcome, hm])
  | some vd =>
    cases hl : mapGet vd.levels lid with
    | none => exact Or.inr (Or.inl (by simp [lookupOutcome, hm, hl]))
    | some cq =>
      by_cases hq : cq = q
      · exact Or.inr (Or.inr (Or.inl (by simp [lookupOutcome, hm, hl, hq])))
      · exact Or.inr (Or.inr (Or.inr ⟨⟨vd.inventoryItemId, lid, q⟩,
          by simp [lookupOutcome, hm, hl, hq]⟩))

theorem classify_cases (mode : Mode) (idx : SkuMap) (seen : List String) (r : Row) :
    (skuHeaderOrMissing r = true ∧ classifyRow mode idx seen r = (.dropped, seen))
    ∨ (skuHeaderOrMissing r = false ∧ jsParseIntOpt r.quantityRaw = none
        ∧ classifyRow mode idx seen r = (.rejected .invalidQuantity, seen))
    ∨ (∃ q k, skuHeaderOrMissing r = false ∧ jsParseIntOpt r.quantityRaw = some q
        ∧ resolveLocation mode (rowSheetLocation r) = .fail k
        ∧ classifyRow mode idx seen r = (.rejected k, seen))
    ∨ (∃ q lid lname, skuHeaderOrMissing r = false ∧ jsParseIntOpt r.quantityRaw = some q
        ∧ resolveLocation mode (rowSheetLocation r) = .ok lid lname
        ∧ combKey (rowSkuKey r) lname ∈ seen
        ∧ classifyRow mode idx seen r = (.rejected .duplicateRow, seen))
    ∨ (∃ q lid lname, skuHeaderOrMissing r = false ∧ jsParseIntOpt r.quantityRaw = some q
        ∧ resolveLocation mode (rowSheetLocation r) = .ok lid lname
        ∧ combKey (rowSkuKey r) lname ∉ seen
        ∧ classifyRow mode idx seen r
            = (lookupOutcome idx (rowSkuKey r) lid q, combKey (rowSkuKey r) lname :: seen)) := by
  by_cases h1 : skuHeaderOrMissing r = true
  · exact Or.inl ⟨h1, classify_dropped mode idx seen r h1⟩
  · have h1f : skuHeaderOrMissing r = false := by
      cases hb : skuHeaderOrMissing r
      · rfl
      · exact absurd hb h1
    cases h2 : jsParseIntOpt r.quantityRaw with
    | none => exact Or.inr (Or.inl ⟨h1f, rfl, classify_invalidQty mode idx seen r h1f h2⟩)
    | some q =>
      cases h3 : resolveLocation mode (rowSheetLocation r) with
      | fail k =>
        exact Or.inr (Or.inr (Or.inl ⟨q, k, h1f, rfl, rfl,
          classify_locFail mode idx seen r q k h1f h2 h3⟩))
      | ok lid lname =>
        by_cases h4 : combKey (rowSkuKey r) lname ∈ seen
        · exact Or.inr (Or.inr (Or.inr (Or.inl ⟨q, lid, lname, h1f, rfl, rfl, h4,
            classify_dup mode idx seen r q lid lname h1f h2 h3 h4⟩)))
        · exact Or.inr (Or.inr (Or.inr (Or.inr ⟨q, lid, lname, h1f, rfl, rfl, h4,
            classify_fresh mode idx seen r q lid lname h1f h2 h3 h4⟩)))

end InventoryApp

namespace InventoryApp

theorem preChecked_eq_some (mode : Mode) (r : Row) (q : Int) (lid lname : String) :
    preChecked mode r = some (q, lid, lname) ↔
      skuHeaderOrMissing r = false ∧ jsParseIntOpt r.quantityRaw = some q
        ∧ resolveLocation mode (rowSheetLocation r) = .ok lid lname := by
  unfold preChecked
  by_cases h1 : skuHeaderOrMissing r = true
  · simp [h1]
  · have h1f : skuHeaderOrMissing r = false := by
      cases hb : skuHeaderOrMissing r
      · rfl
      · exact absurd hb h1
    cases h2 : jsParseIntOpt r.quantityRaw with
    | none => simp [h1f, h2]
    | some q2 =>
      cases h3 : resolveLocation mode (rowSheetLocation r) with
      | fail k => simp [h1f, h2, h3]
      | ok lid2 lname2 => simp [h1f, h2, h3]

theorem classify_seen_superset (mode : Mode) (idx : SkuMap) (seen : List String) (r : Row)
    (k : String) (h : k ∈ seen) : k ∈ (classifyRow mode idx seen r).2 := by
  rcases classify_cases mode idx seen r with ⟨_, he⟩ | ⟨_, _, he⟩ | ⟨q, k2, _, _, _, he⟩
    | ⟨q, lid, lname, _, _, _, _, he⟩ | ⟨q, lid, lname, _, _, _, _, he⟩ <;>
    rw [he] <;> simp [h]

theorem classify_key_mem (mode : Mode) (idx : SkuMap) (seen : List String) (r : Row)
    (q : Int) (lid lname : String) (h : preChecked mode r = some (q, lid, lname)) :
    combKey (rowSkuKey r) lname ∈ (classifyRow mode idx seen r).2 := by
  rw [preChecked_eq_some] at h
  obtain ⟨h1, h2, h3⟩ := h
  by_cases h4 : combKey (rowSkuKey r) lname ∈ seen
  · rw [classify_dup mode idx seen r q lid lname h1 h2 h3 h4]
    exact h4
  · rw [classify_fresh mode idx seen r q lid lname h1 h2 h3 h4]
    simp

theorem classify_seen_mem_inv (mode : Mode) (idx : SkuMap) (seen : List String) (r : Row)
    (k : String) (h : k ∈ (classifyRow mode idx seen r).2) :
    k ∈ seen ∨ ∃ q lid lname, preChecked mode r = some (q, lid, lname)
      ∧ k = combKey (rowSkuKey r) lname := by
  rcases classify_cases mode idx seen r with ⟨_, he⟩ | ⟨_, _, he⟩ | ⟨q, k2, _, _, _, he⟩
    | ⟨q, lid, lname, _, _, _, _, he⟩ | ⟨q, lid, lname, h1, h2, h3, h4, he⟩
  · rw [he] at h; exact Or.inl h
  · rw [he] at h; exact Or.inl h
  · rw [he] at h; exact Or.inl h
  · rw [he] at h; exact Or.inl h
  · rw [he] at h
    rcases List.mem_cons.mp h with hk | hk
    · exact Or.inr ⟨q, lid, lname, (preChecked_eq_some mode r q lid lname).mpr ⟨h1, h2, h3⟩, hk⟩
    · exact Or.inl hk

theorem runSeen_cons (mode : Mode) (idx : SkuMap) (seen : List String) (r : Row) (l : List Row) :
    runSeen mode idx seen (r :: l) = runSeen mode idx (classifyRow mode idx seen r).2 l := rfl

theorem runSeen_superset (mode : Mode) (idx : SkuMap) (l : List Row) :
    ∀ seen k, k ∈ seen → k ∈ runSeen mode idx seen l := by
  induction l with
  | nil => intro seen k h; exact h
  | cons r rest ih =>
    intro seen k h
    exact ih _ _ (classify_seen_superset mode idx seen r k h)

theorem runSeen_mem_inv (mode : Mode) (idx : SkuMap) (l : List Row) :
    ∀ seen k, k ∈ runSeen mode idx seen l →
      k ∈ seen ∨ ∃ r ∈ l, ∃ q lid lname, preChecked mode r = some (q, lid, lname)
        ∧ k = combKey (rowSkuKey r) lname := by
  induction l with
  | nil => intro seen k h; exact Or.inl h
  | cons r rest ih =>
    intro seen k h
    rcases ih _ _ h with h2 | ⟨r2, hr2, hx⟩
    · rcases classify_seen_mem_inv mode idx seen r k h2 with h3 | ⟨q, lid, lname, hp, hk⟩
      · exact Or.inl h3
      · exact Or.inr ⟨r, by simp, q, lid, lname, hp, hk⟩
    · exact Or.inr ⟨r2, by simp [hr2], hx⟩

theorem runSeen_append (mode : Mode) (idx : SkuMap) (l1 l2 : List Row) :
    ∀ seen, runSeen mode idx seen (l1 ++ l2)
      = runSeen mode idx (runSeen mode idx seen l1) l2 := by
  induction l1 with
  | nil => intro seen; rfl
  | cons r rest ih =>
    intro seen
    rw [List.cons_append, runSeen_cons]
    exact ih _

theorem rowOutcomes_cons (mode : Mode) (idx : SkuMap) (seen : List String) (r : Row)
    (l : List Row) :
    rowOutcomes mode idx seen (r :: l)
      = (classifyRow mode idx seen r).1 :: rowOutcomes mode idx (classifyRow mode idx seen r).2 l := rfl

theorem rowOutcomes_append (mode : Mode) (idx : SkuMap) (l1 l2 : List Row) :
    ∀ seen, rowOutcomes mode idx seen (l1 ++ l2)
      = rowOutcomes mode idx seen l1 ++ rowOutcomes mode idx (runSeen mode idx seen l1) l2 := by
  induction l1 with
  | nil => intro seen; rfl
  | cons r rest ih =>
    intro seen
    rw [List.cons_append, rowOutcomes_cons, rowOutcomes_cons, ih]
    rfl

theorem appendSingletonLast {α : Type} (l : List α) (a : α) : (l ++ [a]).getLast? = some a := by
  induction l with
  | nil => rfl
  | cons b rest ih =>
    rw [List.cons_append, List.getLast?_cons]
    simp [ih]

end InventoryApp

namespace InventoryApp

theorem classify_not_dropped (mode : Mode) (idx : SkuMap) (seen : List String) (r : Row)
    (h : skuHeaderOrMissing r = false) : (classifyRow mode idx seen r).1 ≠ .dropped := by
  rcases classify_cases mode idx seen r with ⟨h1, _⟩ | ⟨_, _, he⟩ | ⟨q, k2, _, _, _, he⟩
    | ⟨q, lid, lname, _, _, _, _, he⟩ | ⟨q, lid, lname, _, _, _, _, he⟩
  · rw [h1] at h; exact absurd h (by simp)
  · rw [he]; simp
  · rw [he]; simp
  · rw [he]; simp
  · rw [he]
    rcases lookupOutcome_cases idx (rowSkuKey r) lid q with h5 | h5 | h5 | ⟨d, h5⟩ <;> simp [h5]

theorem valStep_total (mode : Mode) (idx : SkuMap) (st : ValState) (r : Row) :
    (valStep mode idx st r).results.total = st.results.total := by
  unfold valStep
  cases hc : classifyRow mode idx st.seen r with
  | mk o s => cases o <;> simp

theorem valStep_updated (mode : Mode) (idx : SkuMap) (st : ValState) (r : Row) :
    (valStep mode idx st r).results.updated = st.results.updated := by
  unfold valStep
  cases hc : classifyRow mode idx st.seen r with
  | mk o s => cases o <;> simp

theorem valStep_outcomeCount (mode : Mode) (idx : SkuMap) (st : ValState) (r : Row)
    (h : skuHeaderOrMissing r = false) :
    outcomeCount (valStep mode idx st r) = outcomeCount st + 1 := by
  have hnd := classify_not_dropped mode idx st.seen r h
  unfold valStep
  cases hc : classifyRow mode idx st.seen r with
  | mk o s =>
    cases o with
    | dropped => rw [hc] at hnd; exact absurd rfl hnd
    | rejected k => simp [outcomeCount]; omega
    | skipped => simp [outcomeCount]; omega
    | accepted d => simp [outcomeCount]; omega

theorem foldl_valStep_total (mode : Mode) (idx : SkuMap) (l : List Row) :
    ∀ st : ValState, (l.foldl (valStep mode idx) st).results.total = st.results.total := by
  induction l with
  | nil => intro st; rfl
  | cons r rest ih =>
    intro st
    rw [List.foldl_cons, ih, valStep_total]

theorem foldl_valStep_outcomeCount (mode : Mode) (idx : SkuMap) (l : List Row)
    (h : ∀ r ∈ l, skuHeaderOrMissing r = false) :
    ∀ st : ValState, outcomeCount (l.foldl (valStep mode idx) st) = outcomeCount st + l.length := by
  induction l with
  | nil => intro st; simp
  | cons r rest ih =>
    intro st
    rw [List.foldl_cons, ih (fun r2 hr2 => h r2 (by simp [hr2])),
      valStep_outcomeCount mode idx st r (h r (by simp))]
    simp
    omega

end InventoryApp

namespace InventoryApp

theorem buildIndexLoop_thrown (e : String) (rest : List FetchOutcome) :
    ∀ pre : List FetchOutcome,
      (∀ f ∈ pre, ∃ pd, f = .payload (some pd) ∧ pd.hasNextPage = true) →
      ∀ m, buildIndexLoop (pre ++ .thrown e :: rest) m = .error e := by
  intro pre
  induction pre with
  | nil => intro _ m; rfl
  | cons f fs ih =>
    intro hpre m
    obtain ⟨pd, hf, hn⟩ := hpre f (by simp)
    subst hf
    rw [List.cons_append]
    simp only [buildIndexLoop, hn, if_true]
    exact ih (fun f2 hf2 => hpre f2 (by simp [hf2])) _

/-- C2 (as amended): a page fetch that throws makes the whole import abort
before any row validation or mutation — the `action` has no handler, so the
error propagates (modelled as `IndexBuildError` = `.error`).  (The
counterexample shows the stronger form of the claim fails: a page fetch that
resolves with an error payload silently truncates pagination instead.) -/
theorem claim2_thrown_fetch_aborts (mode : Mode) (rows : List Row)
    (pre : List FetchOutcome) (e : String) (rest : List FetchOutcome)
    (hpre : ∀ f ∈ pre, ∃ pd, f = .payload (some pd) ∧ pd.hasNextPage = true) :
    importRun mode (pre ++ .thrown e :: rest) rows = .error e := by
  rw [importRun, buildIndexLoop_thrown e rest pre hpre]

theorem claim2_thrown_fetch_aborts_witness :
    importRun singleMainMode ([] ++ .thrown "network failure" :: []) c2rows
      = .error "network failure" :=
  claim2_thrown_fetch_aborts singleMainMode c2rows [] "network failure" [] (by simp)

/-- C2 counterexample: the second page fetch fails with an error payload
(null `data`); the run still succeeds, validates rows against the partial
index — rejecting the page-two SKU as "Variant not found" — and queues a
mutation for the page-one SKU. -/
theorem claim2_partial_index_counterexample :
    (importRun singleMainMode c2fetches c2rows).toOption.map
        (fun st => (st.results.failedRows.map Prod.snd, st.bulkUpdates))
      = some (["Variant not found"], [⟨"item1", "L1", 9⟩]) := by decide

end InventoryApp

namespace InventoryApp

/-- C3 (as amended): for rows whose SKU cell is present, non-empty and not
the literal header value `"SKU"`, every row yields exactly one outcome, so
the reported total equals accepted diffs + skipped rows + failed rows. -/
theorem claim3_outcome_accounting (mode : Mode) (idx : SkuMap) (rows : List Row)
    (h : ∀ r ∈ rows, skuHeaderOrMissing r = false) :
    (runValidation mode idx rows).results.total =
      (runValidation mode idx rows).bulkUpdates.length
      + (runValidation mode idx rows).results.skippedRows.length
      + (runValidation mode idx rows).results.failedRows.length := by
  have h1 : (runValidation mode idx rows).results.total = rows.length := by
    rw [runValidation, foldl_valStep_total]
    rfl
  have h2 : outcomeCount (runValidation mode idx rows) = rows.length := by
    rw [runValidation, foldl_valStep_outcomeCount mode idx rows h]
    simp [outcomeCount, initResults]
  rw [h1]
  unfold outcomeCount at h2
  omega

theorem claim3_outcome_accounting_witness :
    (runValidation singleMainMode idxA1 [⟨some "a1", some "5", none⟩]).results.total =
      (runValidation singleMainMode idxA1 [⟨some "a1", some "5", none⟩]).bulkUpdates.length
      + (runValidation singleMainMode idxA1 [⟨some "a1", some "5", none⟩]).results.skippedRows.length
      + (runValidation singleMainMode idxA1 [⟨some "a1", some "5", none⟩]).results.failedRows.length :=
  claim3_outcome_accounting singleMainMode idxA1 [⟨some "a1", some "5", none⟩] (by decide)

/-- C3 counterexample: a row whose SKU cell holds the header literal
`"SKU"` is dropped by the bare `continue` with no outcome, yet it is
counted in `results.total`: 1 ≠ 0 + 0 + 0. -/
theorem claim3_unaccounted_row_counterexample :
    (runValidation singleMainMode [] c3rows).results.total ≠
      (runValidation singleMainMode [] c3rows).bulkUpdates.length
      + (runValidation singleMainMode [] c3rows).results.skippedRows.length
      + (runValidation singleMainMode [] c3rows).results.failedRows.length := by decide

end InventoryApp

namespace InventoryApp

/-- C1: for a row past the structural quantity check, location resolution
and duplicate check — SKU absent from the index gives
Rejected(variant not found); SKU present but no quantity at the resolved
location gives Rejected(location not stocked); quantity exactly equal gives
Skipped, never Accepted; otherwise Accepted with the diff built from the
index entry and the row. -/
theorem claim1_index_lookup_outcomes (mode : Mode) (idx : SkuMap) (seen : List String)
    (r : Row) (q : Int) (lid lname : String)
    (hsku : skuHeaderOrMissing r = false)
    (hq : jsParseIntOpt r.quantityRaw = some q)
    (hloc : resolveLocation mode (rowSheetLocation r) = .ok lid lname)
    (hdup : combKey (rowSkuKey r) lname ∉ seen) :
    (mapGet idx (rowSkuKey r) = none →
        (classifyRow mode idx seen r).1 = .rejected .variantNotFound)
    ∧ (∀ vd, mapGet idx (rowSkuKey r) = some vd →
        (mapGet vd.levels lid = none →
            (classifyRow mode idx seen r).1 = .rejected .locationNotStocked)
        ∧ (mapGet vd.levels lid = some q →
            (classifyRow mode idx seen r).1 = .skipped
              ∧ ∀ d, (classifyRow mode idx seen r).1 ≠ .accepted d)
        ∧ (∀ cq, mapGet vd.levels lid = some cq → cq ≠ q →
            (classifyRow mode idx seen r).1
              = .accepted ⟨vd.inventoryItemId, lid, q⟩)) := by
  have hred := classify_fresh mode idx seen r q lid lname hsku hq hloc hdup
  rw [hred]
  refine ⟨?_, ?_⟩
  · intro hm
    simp [lookupOutcome, hm]
  · intro vd hm
    refine ⟨?_, ?_, ?_⟩
    · intro hl
      simp [lookupOutcome, hm, hl]
    · intro hl
      constructor
      · simp [lookupOutcome, hm, hl]
      · intro d
        simp [lookupOutcome, hm, hl]
    · intro cq hl hne
      simp [lookupOutcome, hm, hl, hne]

theorem claim1_index_lookup_outcomes_witness :
    (classifyRow singleMainMode idxA1 [] ⟨some "A1", some "9", none⟩).1
      = .accepted ⟨"item1", "L1", 9⟩ := by
  have h := claim1_index_lookup_outcomes singleMainMode idxA1 []
    ⟨some "A1", some "9", none⟩ 9 "L1" "Main" (by decide) (by decide) (by decide) (by decide)
  exact (h.2 ⟨"item1", [("L1", 5)]⟩ (by decide)).2.2 5 (by decide) (by decide)

end InventoryApp

namespace InventoryApp

theorem scanWriteLines_none (post : List (Option WriteLine)) :
    ∀ (pre : List (Option WriteLine)) (sc : Nat) (errs : List String),
      scanWriteLines (pre ++ none :: post) sc errs = scanWriteLines pre sc errs := by
  intro pre
  induction pre with
  | nil => intro sc errs; rfl
  | cons l rest ih =>
    intro sc errs
    cases l with
    | none => rfl
    | some w =>
      rw [List.cons_append]
      cases hw : w.userErrors with
      | nil =>
        simp only [scanWriteLines, hw]
        exact ih _ _
      | cons e es =>
        simp only [scanWriteLines, hw]
        exact ih _ _

/-- C4 (as amended): for read-job artifacts a malformed line is dropped and
the remaining lines are processed unchanged (per-line
`catch`); for write-job artifacts the first malformed line aborts the scan
— the counts accumulated before it are kept, everything after it is never
examined (the `try` wraps the whole loop). -/
theorem claim4_parse_error_handling :
    (∀ (pre post : List (Option ReadObj)),
        buildExportState (pre ++ none :: post) = buildExportState (pre ++ post))
    ∧ (∀ (pre post : List (Option WriteLine)),
        scanWriteArtifact (pre ++ none :: post) = scanWriteArtifact pre) := by
  constructor
  · intro pre post
    unfold buildExportState
    rw [List.foldl_append, List.foldl_append]
    rfl
  · intro pre post
    unfold scanWriteArtifact
    exact scanWriteLines_none post pre 0 []

/-- C4 counterexample: in a write-job artifact `[malformed, well-formed
success line]` the scan stops at the malformed line and reports 0
successes; dropping only the offending line would report 1. -/
theorem claim4_write_scan_counterexample :
    scanWriteArtifact [none, some ⟨[]⟩] = (0, [])
    ∧ scanWriteArtifact [some ⟨[]⟩] = (1, [])
    ∧ scanWriteArtifact [none, some ⟨[]⟩] ≠ scanWriteArtifact [some ⟨[]⟩] := by decide

end InventoryApp

namespace InventoryApp

theorem resolvedPair_eq_some (mode : Mode) (r : Row) (p : String × String) :
    resolvedPair mode r = some p ↔
      ∃ q lid, preChecked mode r = some (q, lid, p.2) ∧ p.1 = rowSkuKey r := by
  unfold resolvedPair
  cases hp : preChecked mode r with
  | none => simp
  | some t =>
    obtain ⟨q0, lid0, lname0⟩ := t
    obtain ⟨p1, p2⟩ := p
    simp
    exact ⟨fun h => ⟨h.2, h.1.symm⟩, fun h => ⟨h.2.symm, h.1⟩⟩

end InventoryApp

namespace InventoryApp

/-- C5 (as amended): any later row resolving to the same
(case-folded SKU, location name) pair as an earlier resolvable row is
Rejected(duplicate row), whatever its quantity; and the first row of a pair
group is processed past the duplicate check provided no earlier resolvable
row produces the same concatenated `skuKey|locationName` key (the code
compares those keys, so a SKU or location name containing `|` can collide
with a different pair — see the counterexample). -/
theorem claim5_duplicate_pairs (mode : Mode) (idx : SkuMap) :
    (∀ (pre : List Row) (r1 : Row) (mid : List Row) (r2 : Row) (p : String × String),
        resolvedPair mode r1 = some p → resolvedPair mode r2 = some p →
        (rowOutcomes mode idx [] (pre ++ r1 :: mid ++ [r2])).getLast?
          = some (.rejected .duplicateRow))
    ∧ (∀ (pre : List Row) (r : Row) (p : String × String),
        resolvedPair mode r = some p →
        (∀ r' ∈ pre, ∀ p', resolvedPair mode r' = some p' →
            combKey p'.1 p'.2 ≠ combKey p.1 p.2) →
        (rowOutcomes mode idx [] (pre ++ [r])).getLast?
          ≠ some (.rejected .duplicateRow)) := by
  constructor
  · intro pre r1 mid r2 p h1 h2
    obtain ⟨q1, lid1, hp1, hk1⟩ := (resolvedPair_eq_some mode r1 p).mp h1
    obtain ⟨q2, lid2, hp2, hk2⟩ := (resolvedPair_eq_some mode r2 p).mp h2
    have hsplit : pre ++ r1 :: mid ++ [r2] = (pre ++ r1 :: mid) ++ [r2] := by simp
    rw [hsplit, rowOutcomes_append]
    have hsingle : rowOutcomes mode idx (runSeen mode idx [] (pre ++ r1 :: mid)) [r2]
        = [(classifyRow mode idx (runSeen mode idx [] (pre ++ r1 :: mid)) r2).1] := rfl
    rw [hsingle, appendSingletonLast]
    obtain ⟨hsku2, hq2, hloc2⟩ := (preChecked_eq_some mode r2 q2 lid2 p.2).mp hp2
    have hkeymem : combKey (rowSkuKey r2) p.2 ∈ runSeen mode idx [] (pre ++ r1 :: mid) := by
      have e1 : combKey (rowSkuKey r2) p.2 = combKey (rowSkuKey r1) p.2 := by
        rw [← hk1, ← hk2]
      rw [runSeen_append, runSeen_cons]
      apply runSeen_superset
      rw [e1]
      exact classify_key_mem mode idx (runSeen mode idx [] pre) r1 q1 lid1 p.2 hp1
    rw [classify_dup mode idx _ r2 q2 lid2 p.2 hsku2 hq2 hloc2 hkeymem]
  · intro pre r p hr hnone
    obtain ⟨q, lid, hp, hk⟩ := (resolvedPair_eq_some mode r p).mp hr
    obtain ⟨hsku, hq, hloc⟩ := (preChecked_eq_some mode r q lid p.2).mp hp
    have hnotin : combKey (rowSkuKey r) p.2 ∉ runSeen mode idx [] pre := by
      intro hmem
      rcases runSeen_mem_inv mode idx pre [] _ hmem with h0 | ⟨r', hr', q', lid', lname', hp', hkk⟩
      · simp at h0
      · refine hnone r' hr' (rowSkuKey r', lname')
          ((resolvedPair_eq_some mode r' (rowSkuKey r', lname')).mpr ⟨q', lid', hp', rfl⟩) ?_
        show combKey (rowSkuKey r') lname' = combKey p.1 p.2
        rw [← hkk, hk]
    rw [rowOutcomes_append]
    have hsingle : rowOutcomes mode idx (runSeen mode idx [] pre) [r]
        = [(classifyRow mode idx (runSeen mode idx [] pre) r).1] := rfl
    rw [hsingle, appendSingletonLast]
    rw [classify_fresh mode idx _ r q lid p.2 hsku hq hloc hnotin]
    intro hcontra
    rcases lookupOutcome_cases idx (rowSkuKey r) lid q with h5 | h5 | h5 | ⟨d, h5⟩ <;>
      simp [h5] at hcontra

theorem claim5_duplicate_pairs_witness :
    (rowOutcomes singleMainMode idxA1 []
        ([] ++ (⟨some "A1", some "5", none⟩ : Row) :: [] ++ [⟨some "a1", some "7", none⟩])).getLast?
      = some (.rejected .duplicateRow) :=
  (claim5_duplicate_pairs singleMainMode idxA1).1 [] ⟨some "A1", some "5", none⟩ []
    ⟨some "a1", some "7", none⟩ ("a1", "Main") (by decide) (by decide)

/-- C5 counterexample: rows with distinct (SKU, location) pairs collide on
the concatenated key (`a|b` at `c` vs `a` at `b|c`, both keyed `a|b|c`), so
the first — and only — row of the pair (`a`, `b|c`) is rejected as a
duplicate instead of being processed against the index. -/
theorem claim5_delimiter_collision_counterexample :
    resolvedPair c5mode c5r1 = some ("a|b", "c")
    ∧ resolvedPair c5mode c5r2 = some ("a", "b|c")
    ∧ (("a|b", "c") : String × String) ≠ ("a", "b|c")
    ∧ rowOutcomes c5mode c5idx [] [c5r1, c5r2]
        = [.rejected .variantNotFound, .rejected .duplicateRow] := by decide

end InventoryApp

namespace InventoryApp

theorem variantRows_length (locFilter : Option String) (title : Option String)
    (v : ProjVariant) :
    (variantRows locFilter title v).length = variantRowBudget locFilter v := by
  unfold variantRows variantRowBudget
  by_cases he : (survivingLevels locFilter v).isEmpty
  · by_cases hf : filterActive locFilter <;> simp [he, hf]
  · simp [he]

theorem foldl_variantRows_length (locFilter : Option String) (title : Option String)
    (vs : List ProjVariant) :
    ∀ acc : List OutRow,
      (vs.foldl (fun rows2 v => rows2 ++ variantRows locFilter title v) acc).length
        = acc.length + (vs.map (variantRowBudget locFilter)).sum := by
  induction vs with
  | nil => intro acc; simp
  | cons v rest ih =>
    intro acc
    rw [List.foldl_cons, ih]
    simp [variantRows_length]
    omega

theorem foldl_projectRows_length (locFilter : Option String) (ps : List ProjProduct) :
    ∀ acc : List OutRow,
      (ps.foldl
          (fun rows p =>
            if p.variants.isEmpty then rows
            else p.variants.foldl (fun rows2 v => rows2 ++ variantRows locFilter p.title v) rows)
          acc).length
        = acc.length + specRowCount locFilter ps := by
  induction ps with
  | nil => intro acc; simp [specRowCount]
  | cons p rest ih =>
    intro acc
    rw [List.foldl_cons, ih]
    by_cases hv : p.variants.isEmpty
    · have hv2 : p.variants = [] := List.isEmpty_iff.mp hv
      simp [specRowCount, hv, hv2]
    · have hv2 : ¬ p.variants = [] := fun h => hv (by simp [h])
      simp [specRowCount, hv, hv2, foldl_variantRows_length]
      omega

/-- C6 (as amended): the projection loop itself emits exactly as many rows
as the projection rule of the spec prescribes — one per surviving
(Variant × InventoryLevel) pair, one placeholder for a variant with nothing
surviving when no location filter is active, and zero rows for such a
variant when a filter is active — but the loader then appends a single
"No data found" sentinel row whenever that count is zero, so the returned
list has length `max 1` of the promised count and is never empty. -/
theorem claim6_projection_count (locFilter : Option String) (products : List ProjProduct) :
    (projectRows locFilter products).length = specRowCount locFilter products
    ∧ (finalizeRows locFilter products).length = max 1 (specRowCount locFilter products) := by
  have h1 : (projectRows locFilter products).length = specRowCount locFilter products := by
    unfold projectRows
    rw [foldl_projectRows_length]
    simp
  refine ⟨h1, ?_⟩
  unfold finalizeRows
  by_cases he : (projectRows locFilter products).isEmpty
  · have h0 : specRowCount locFilter products = 0 := by
      rw [← h1, List.isEmpty_iff.mp he]
      rfl
    simp [he, h0]
  · have hpos : 0 < specRowCount locFilter products := by
      rw [← h1]
      cases hp : projectRows locFilter products with
      | nil => rw [hp] at he; exact absurd rfl he
      | cons a l => simp
    simp only [he, Bool.false_eq_true, if_false]
    rw [h1]
    omega

/-- C6 counterexample: with the filter set to `L9` the only variant (stocked
at `L1`) survives nowhere, so the claim prescribes zero output rows — but
the loader emits exactly one "No data found" row. -/
theorem claim6_no_data_row_counterexample :
    projectRows (some "L9") c6products = []
    ∧ specRowCount (some "L9") c6products = 0
    ∧ finalizeRows (some "L9") c6products = [noDataRow]
    ∧ (finalizeRows (some "L9") c6products).length ≠ 0 := by decide

end InventoryApp

namespace InventoryApp

/-- C7 (as amended): if a staged-upload stage call resolves but reports
failure — user errors at the target request, no staged target, a non-ok
upload response, trigger user errors, or no returned operation id — the
batch mutation is aborted and the function returns the validation-phase
`results` unchanged except for exactly one appended error message: all
failed rows, skipped rows, counts and previously collected errors are
preserved and no bulk operation id is recorded.  A stage call that throws
(rejected promise), however, propagates out of the unguarded `await` and
the whole report is lost — see the counterexample. -/
theorem claim7_upload_abort_preserves (results : RunResults) (diffs : List Diff)
    (st : StageResponse) (up : UploadResult) (tr : TriggerResponse)
    (hne : diffs ≠ [])
    (hfail : stageRequestFailedB st = true ∨ firstTarget st = none
      ∨ up.ok = false ∨ tr.userErrors ≠ [] ∨ tr.operationId = none) :
    (∃ m, executeUpdates results diffs (.ok st) (.ok up) (.ok tr)
        = .ok { results with errors := results.errors ++ [m] })
    ∧ (∀ (e : String) (upx : Except String UploadResult) (trx : Except String TriggerResponse),
        executeUpdates results diffs (.error e) upx trx = .error e) := by
  have hd : diffs.isEmpty = false := by
    cases diffs with
    | nil => exact absurd rfl hne
    | cons d ds => rfl
  constructor
  · unfold executeUpdates
    rw [hd]
    simp only [Bool.false_eq_true, if_false]
    unfold runUploadPipeline
    by_cases h1 : stageRequestFailedB st
    · exact ⟨stageFailMsg st, by simp [h1]⟩
    · have h1f : stageRequestFailedB st = false := by
        cases hb : stageRequestFailedB st
        · rfl
        · exact absurd hb h1
      cases h2 : firstTarget st with
      | none => exact ⟨"Failed to get upload target URL", by simp [h1f, h2]⟩
      | some t =>
        cases h3 : up.ok with
        | false => exact ⟨"Upload failed: " ++ up.statusText, by simp [h1f, h2, h3]⟩
        | true =>
          cases h4 : tr.userErrors with
          | cons e es => exact ⟨"Bulk Mutation Error: " ++ e, by simp [h1f, h2, h3, h4]⟩
          | nil =>
            cases h5 : tr.operationId with
            | none =>
              exact ⟨"Failed to trigger backend bulk operation (No ID returned)",
                by simp [h1f, h2, h3, h4, h5]⟩
            | some op =>
              rcases hfail with h | h | h | h | h
              · exact absurd h (by simp [h1f])
              · rw [h2] at h; exact absurd h (by simp)
              · rw [h3] at h; exact absurd h (by simp)
              · rw [h4] at h; exact absurd rfl h
              · rw [h5] at h; exact absurd h (by simp)
  · intro e upx trx
    unfold executeUpdates
    rw [hd]
    simp only [Bool.false_eq_true, if_false]
    rfl

theorem claim7_upload_abort_preserves_witness :
    (∃ m, executeUpdates w7results [⟨"item1", "L1", 9⟩] (.ok w7stage) (.ok ⟨true, "OK"⟩)
        (.ok ⟨[], some "op1"⟩)
      = .ok { w7results with errors := w7results.errors ++ [m] })
    ∧ (∀ (e : String) (upx : Except String UploadResult) (trx : Except String TriggerResponse),
        executeUpdates w7results [⟨"item1", "L1", 9⟩] (.error e) upx trx = .error e) :=
  claim7_upload_abort_preserves w7results [⟨"item1", "L1", 9⟩] w7stage ⟨true, "OK"⟩
    ⟨[], some "op1"⟩ (by simp) (Or.inl (by decide))

/-- C7 counterexample: a target-request call whose promise rejects (for
example a network failure) makes the `action` throw instead of returning a
report — the validation outcomes accumulated in `w7results` are lost with
the exception, where the original claim promises a returned report that
still contains them. -/
theorem claim7_thrown_call_counterexample :
    executeUpdates w7results [⟨"item1", "L1", 9⟩] (.error "Failed to fetch")
        (.ok ⟨true, "OK"⟩) (.ok ⟨[], some "op1"⟩)
      = .error "Failed to fetch" := rfl

/-- C8: merging the deferred (write-job) report into the immediate report
adds the updated counts, concatenates the error lists, and leaves the
failed-row list, skipped-row list and total untouched — a unit erroring in
the deferred result only ever lands in the error list. -/
theorem claim8_merge_report (v : RunResults) (lines : List (Option WriteLine)) :
    (mergeResults v (deferredReport lines)).updated = v.updated + (deferredReport lines).updated
    ∧ (mergeResults v (deferredReport lines)).errors = v.errors ++ (deferredReport lines).errors
    ∧ (mergeResults v (deferredReport lines)).failedRows = v.failedRows
    ∧ (mergeResults v (deferredReport lines)).skippedRows = v.skippedRows
    ∧ (mergeResults v (deferredReport lines)).total = v.total :=
  ⟨rfl, rfl, rfl, rfl, rfl⟩

end InventoryApp

namespace InventoryApp

theorem countSubmits_append (a b : List ApiEvent) :
    countSubmits (a ++ b) = countSubmits a + countSubmits b := by
  simp [countSubmits, List.filter_append]

theorem preSubmitEvents_no_submit (c0 : Option (String × String)) :
    ∀ a ∈ preSubmitEvents c0, ¬ a = ApiEvent.submitReadJob := by
  cases c0 with
  | none =>
    intro a ha
    simp [preSubmitEvents] at ha
    simp [ha]
  | some p =>
    obtain ⟨id, st⟩ := p
    intro a ha
    unfold preSubmitEvents at ha
    by_cases h : st ≠ "COMPLETED" <;> simp [h] at ha
    · rcases ha with ha | ha <;> simp [ha]
    · simp [ha]

theorem countSubmits_preSubmitEvents (c0 : Option (String × String)) :
    countSubmits (preSubmitEvents c0) = 0 := by
  cases c0 with
  | none => rfl
  | some p =>
    obtain ⟨id, status⟩ := p
    unfold preSubmitEvents
    by_cases h : status ≠ "COMPLETED" <;> simp [h, countSubmits]

/-- C9: a first submission whose user errors mention "in progress" is
followed by exactly one current-operation query, one cancellation of that
operation, and one resubmission (two submits in total, never more); if the
retry still returns user errors the first of them is surfaced as the
failure with no further submission.  Without the "in progress" error there
is exactly one submission — the cancel-and-retry is the sole built-in
retry. -/
theorem claim9_single_cancel_retry (c0 : Option (String × String)) (s1 s2 : SubmitResult)
    (cid : String) :
    (hasInProgress s1.userErrors = true →
        (exportSubmitAction c0 s1 (some cid) s2).1
          = preSubmitEvents c0
            ++ [.submitReadJob, .queryCurrentOp, .cancelOp cid, .submitReadJob]
        ∧ countSubmits (exportSubmitAction c0 s1 (some cid) s2).1 = 2
        ∧ (∀ e es, s2.userErrors = e :: es →
            (exportSubmitAction c0 s1 (some cid) s2).2 = .failure e))
    ∧ (hasInProgress s1.userErrors = false →
        (exportSubmitAction c0 s1 (some cid) s2).1 = preSubmitEvents c0 ++ [.submitReadJob]
        ∧ countSubmits (exportSubmitAction c0 s1 (some cid) s2).1 = 1) := by
  constructor
  · intro hp
    have htr : exportSubmitAction c0 s1 (some cid) s2
        = (preSubmitEvents c0 ++ [.submitReadJob] ++ [.queryCurrentOp] ++ [.cancelOp cid]
            ++ [.submitReadJob], finalOutcome s2) := by
      simp [exportSubmitAction, hp]
    refine ⟨?_, ?_, ?_⟩
    · rw [htr]; simp
    · rw [htr]
      simp [countSubmits_append, countSubmits_preSubmitEvents, countSubmits]
      exact preSubmitEvents_no_submit c0
    · intro e es hse
      rw [htr]
      simp [finalOutcome, hse]
  · intro hp
    have htr : exportSubmitAction c0 s1 (some cid) s2
        = (preSubmitEvents c0 ++ [.submitReadJob], finalOutcome s1) := by
      simp [exportSubmitAction, hp]
    refine ⟨by rw [htr], ?_⟩
    rw [htr]
    simp [countSubmits_append, countSubmits_preSubmitEvents, countSubmits]
    exact preSubmitEvents_no_submit c0

theorem claim9_single_cancel_retry_witness :
    ((exportSubmitAction none ⟨["A bulk query operation for this app and shop is already in progress"], none⟩
        (some "gid1") ⟨["still in progress"], none⟩).1
      = preSubmitEvents none
        ++ [.submitReadJob, .queryCurrentOp, .cancelOp "gid1", .submitReadJob])
    ∧ countSubmits (exportSubmitAction none
        ⟨["A bulk query operation for this app and shop is already in progress"], none⟩
        (some "gid1") ⟨["still in progress"], none⟩).1 = 2
    ∧ (exportSubmitAction none
        ⟨["A bulk query operation for this app and shop is already in progress"], none⟩
        (some "gid1") ⟨["still in progress"], none⟩).2 = .failure "still in progress" := by
  have h := (claim9_single_cancel_retry none
    ⟨["A bulk query operation for this app and shop is already in progress"], none⟩
    ⟨["still in progress"], none⟩ "gid1").1 (by decide)
  exact ⟨h.1, h.2.1, h.2.2 "still in progress" [] rfl⟩

end InventoryApp

namespace InventoryApp

/-- C10: a `"Quantity Available"` value with a parseable leading integer is
never rejected for invalid quantity — the row is classified exactly as if
the cell held just that truncated integer (so `"9.7"` or `"9x"` can produce
an Accepted diff with quantity 9); only a value with no parseable leading
integer is rejected as invalid. -/
theorem claim10_parseint_truncation (mode : Mode) (idx : SkuMap) (seen : List String)
    (r : Row) (raw : String) (q : Int)
    (hraw : r.quantityRaw = some raw) (hq : jsParseInt raw = some q) :
    ((classifyRow mode idx seen r).1 ≠ .rejected .invalidQuantity)
    ∧ (∀ r2 : Row, r2.sku = r.sku → r2.locationLabel = r.locationLabel →
        jsParseIntOpt r2.quantityRaw = some q →
        classifyRow mode idx seen r2 = classifyRow mode idx seen r)
    ∧ (∀ r3 : Row, skuHeaderOrMissing r3 = false → jsParseIntOpt r3.quantityRaw = none →
        (classifyRow mode idx seen r3).1 = .rejected .invalidQuantity) := by
  have hqopt : jsParseIntOpt r.quantityRaw = some q := by rw [hraw]; exact hq
  refine ⟨?_, ?_, ?_⟩
  · rcases classify_cases mode idx seen r with ⟨h1, he⟩ | ⟨_, h2, he⟩ | ⟨q2, k, _, h2, h3, he⟩
      | ⟨q2, lid, lname, _, _, _, _, he⟩ | ⟨q2, lid, lname, _, _, _, _, he⟩
    · rw [he]; simp
    · rw [hqopt] at h2; exact absurd h2 (by simp)
    · rw [he]
      rcases resolveLocation_fail_kind mode (rowSheetLocation r) k h3 with hk | ⟨s, hk⟩ | ⟨a, b, hk⟩ <;>
        simp [hk]
    · rw [he]; simp
    · rw [he]
      rcases lookupOutcome_cases idx (rowSkuKey r) lid q2 with h5 | h5 | h5 | ⟨d, h5⟩ <;> simp [h5]
  · intro r2 hs hl hq2
    obtain ⟨s0, qr0, l0⟩ := r
    obtain ⟨s2, qr2, l2⟩ := r2
    simp only at hs hl
    subst hs
    subst hl
    simp only at hraw
    simp only [classifyRow, skuHeaderOrMissing, rowSku, rowSkuKey, rowSheetLocation]
    simp only at hq2 hqopt
    rw [hq2, hqopt]
  · intro r3 h3f h3n
    rw [classify_invalidQty mode idx seen r3 h3f h3n]

end InventoryApp

namespace InventoryApp

theorem claim10_parseint_truncation_witness :
    ((classifyRow singleMainMode idxA1 [] ⟨some "A1", some "9.7", none⟩).1
        ≠ .rejected .invalidQuantity)
    ∧ classifyRow singleMainMode idxA1 [] ⟨some "A1", some "9x", none⟩
        = classifyRow singleMainMode idxA1 [] ⟨some "A1", some "9.7", none⟩
    ∧ (classifyRow singleMainMode idxA1 [] ⟨some "A1", some "9.7", none⟩).1
        = .accepted ⟨"item1", "L1", 9⟩ := by
  have h := claim10_parseint_truncation singleMainMode idxA1 [] ⟨some "A1", some "9.7", none⟩
    "9.7" 9 rfl (by decide)
  exact ⟨h.1, h.2.1 ⟨some "A1", some "9x", none⟩ rfl rfl (by decide), by decide⟩

end InventoryApp
